import Mathlib

/-!
Verification development for the MSDS460 shortest-path Streamlit app
(`src/streamlit_app.py`).  The app declares a 12-edge weighted network,
computes a shortest route with networkx Dijkstra over an undirected graph
(lines 29-43), and independently solves a binary LP (PuLP, lines 49-72)
whose flow-balance constraints are built over the declared edge
orientations.  All definitions below are shallow embeddings of that
source; external library calls (networkx, PuLP/CBC) have no source in the
repository and are modelled from the spec, as marked in their doc
comments.
-/

set_option maxRecDepth 20000
set_option maxHeartbeats 4000000

namespace MSDS460

/-- Node labels are strings, as in the source. -/
abbrev Town := String

/-- A declared edge with its weight: one entry of the source's `edges`
dict, in the declared `(u, v)` orientation. -/
abbrev WEdge := (Town × Town) × Nat

/-- Lexicographic comparison of character lists by code point, the order
Python uses to compare strings. -/
def charsLt : List Char → List Char → Bool
  | [], [] => false
  | [], _ :: _ => true
  | _ :: _, [] => false
  | a :: as, b :: bs =>
      if a.toNat < b.toNat then true
      else if b.toNat < a.toNat then false
      else charsLt as bs

/-- Python's `<` on strings: lexicographic by code point. -/
def strLt (a b : Town) : Bool := charsLt a.data b.data

/-- The source's `edges` dict (lines 8-21), in declaration order. -/
def edges : List WEdge :=
  [ (("Origin", "A"), 40),
    (("Origin", "B"), 60),
    (("Origin", "C"), 50),
    (("A", "B"), 10),
    (("A", "D"), 70),
    (("B", "C"), 20),
    (("B", "D"), 55),
    (("B", "E"), 40),
    (("C", "E"), 50),
    (("D", "E"), 10),
    (("D", "Destination"), 60),
    (("E", "Destination"), 80) ]

/-- `towns = sorted(set(t for edge in edges for t in edge))` (line 23):
the distinct endpoints of the declared edges, sorted lexicographically. -/
def townsOf (es : List WEdge) : List Town :=
  ((es.map (fun p => [p.1.1, p.1.2])).flatten.dedup).insertionSort
    (fun a b => strLt a b = true)

/-- Python exceptions the embedded code can raise, together with the
error kinds named by the spec (`UnreachableError`, `InfeasibleError`,
`DecodeError`, `InvalidEdgeError`). -/
inductive PyErr where
  | noPath
  | indexError
  | infeasible
  | decodeError
  | invalidEdge
deriving DecidableEq

/-! ## The binary LP model (lines 49-66)

`x = LpVariable.dicts("x", edges, cat=LpBinary)` creates one binary
variable per key of the `edges` dict.  A candidate assignment of those
variables is a `List Bool` with one entry per declared edge, in
declaration order. -/

/-- `inflow = lpSum([x[e] for e in edges if e[1] == t])` (line 59). -/
def inflow (es : List WEdge) (σ : List Bool) (t : Town) : Int :=
  (((es.zip σ).filter (fun p => decide (p.1.1.2 = t))).map
    (fun p => if p.2 then (1 : Int) else 0)).sum

/-- `outflow = lpSum([x[e] for e in edges if e[0] == t])` (line 60). -/
def outflow (es : List WEdge) (σ : List Bool) (t : Town) : Int :=
  (((es.zip σ).filter (fun p => decide (p.1.1.1 = t))).map
    (fun p => if p.2 then (1 : Int) else 0)).sum

/-- The single equality constraint the loop body (lines 61-66) adds for
town `t`. -/
def nodeConstraint (es : List WEdge) (σ : List Bool) (t : Town) : Bool :=
  if t = "Origin" then decide (outflow es σ t - inflow es σ t = 1)
  else if t = "Destination" then decide (inflow es σ t - outflow es σ t = 1)
  else decide (inflow es σ t - outflow es σ t = 0)

/-- An assignment satisfies the model iff the flow-balance constraint of
every town holds (the loop at lines 58-66 adds exactly one constraint per
element of `towns`). -/
def feasibleB (es : List WEdge) (σ : List Bool) : Bool :=
  (townsOf es).all (nodeConstraint es σ)

/-- `lpSum([edges[e] * x[e] for e in edges])` (line 55): the minimized
objective value of an assignment. -/
def objective (es : List WEdge) (σ : List Bool) : Nat :=
  ((es.zip σ).map (fun p => if p.2 then p.1.2 else 0)).sum

/-- `opt_path = [e for e in edges if x[e].value() == 1]` (line 69):
the selected edges, in declaration order. -/
def selectedEdges (es : List WEdge) (σ : List Bool) : List (Town × Town) :=
  ((es.zip σ).filter (fun p => p.2)).map (fun p => p.1.1)

/-- Dict lookup `edges[e]` (line 72). -/
def weightOf (es : List WEdge) (e : Town × Town) : Nat :=
  match es.find? (fun p => decide (p.1 = e)) with
  | some p => p.2
  | none => 0

/-- `sum(edges[e] for e in opt_path)` (line 72): the total distance the
app reports for the LP solution. -/
def reportedTotal (es : List WEdge) (σ : List Bool) : Nat :=
  ((selectedEdges es σ).map (weightOf es)).sum

/-- All binary assignments of length `n`: the search space of the binary
program over `n` edge variables. -/
def allAssignments : Nat → List (List Bool)
  | 0 => [[]]
  | n + 1 =>
      ((allAssignments n).map (fun σ => false :: σ)) ++
      ((allAssignments n).map (fun σ => true :: σ))

/-- The feasible region of the binary program. -/
def feasibleAssignments (es : List WEdge) : List (List Bool) :=
  (allAssignments es.length).filter (feasibleB es)

/-- The optimal objective value of the binary program, when feasible. -/
def lpOptimum (es : List WEdge) : Option Nat :=
  ((feasibleAssignments es).map (objective es)).min?

/-- Modelled from the spec: `model.solve()` (line 68) invokes the CBC
solver, which is not part of the repository.  Per the spec's contract for
the optimizer, a solve of a feasible binary program produces an optimal
feasible assignment of the binary variables; we take the first optimal
element of the enumerated feasible region (the target model has a unique
optimum, so the choice is immaterial). -/
def solveLP (es : List WEdge) : Option (List Bool) :=
  (feasibleAssignments es).find?
    (fun σ => decide (some (objective es σ) = lpOptimum es))

/-- Modelled from the spec: after `model.solve()` the code reads
`x[e].value()` without checking the solver status.  When the program is
infeasible, PuLP leaves every `varValue` at `None`, so the comparison
`x[e].value() == 1` is false for every edge; this is modelled by the
all-`false` assignment.  When the program is feasible, the solver's
optimal values are read back. -/
def solvedSelection (es : List WEdge) : List Bool :=
  match solveLP es with
  | some σ => σ
  | none => List.replicate es.length false

/-- Line 70: `" → ".join([opt_path[0][0]] + [e[1] for e in opt_path])`.
`opt_path[0]` raises `IndexError` on an empty selection; otherwise the
node sequence is the first selected edge's source endpoint followed by
the second endpoint of every selected edge, in declaration order, with
no adjacency check. -/
def decodeSeq (sel : List (Town × Town)) : Except PyErr (List Town) :=
  match sel with
  | [] => .error .indexError
  | e :: l => .ok (e.1 :: (e :: l).map (fun x => x.2))

/-- Lines 68-72 as one operation: solve, decode the selected edges, and
report the node sequence with its total distance. -/
def optimalPathResult (es : List WEdge) : Except PyErr (List Town × Nat) :=
  let sel := selectedEdges es (solvedSelection es)
  match decodeSeq sel with
  | .error e => .error e
  | .ok p => .ok (p, (sel.map (weightOf es)).sum)

/-! ## The shortest-path search (lines 29-43)

`G = nx.Graph()` with `G.add_edge(u, v, weight=w)` per declared edge
builds an undirected graph; `nx.dijkstra_path` / `nx.dijkstra_path_length`
run Dijkstra's label-setting search on it.  networkx is not part of the
repository, so the search is modelled from the spec (§4.2): tentative
distances, a frontier ordered by tentative distance, extraction of the
minimum, neighbor relaxation with predecessor recording, termination on
extraction of the target, and path reconstruction by predecessor links. -/

/-- Modelled from the spec: `neighbors(u)` returns all `(v, weight)`
pairs reachable by one edge from `u`, in either declared direction
(§4.1); the undirected graph is built from the declared edges
(lines 29-31). -/
def neighbors (es : List WEdge) (u : Town) : List (Town × Nat) :=
  es.foldr
    (fun p acc =>
      if p.1.1 = u then (p.1.2, p.2) :: acc
      else if p.1.2 = u then (p.1.1, p.2) :: acc
      else acc) []

/-- A frontier entry: node, tentative distance, predecessor. -/
abbrev DEntry := Town × Nat × Option Town

/-- The unvisited entry of minimum tentative distance (first such entry,
for deterministic tie-breaking as the spec requires). -/
def pickMin (fr : List DEntry) : Option DEntry :=
  fr.foldl
    (fun best c =>
      match best with
      | none => some c
      | some b => if c.2.1 < b.2.1 then some c else some b) none

/-- Relax one neighbor `nb` of the extracted node `u` (distance `du`):
skip visited nodes, discover new ones, and lower the tentative distance
(recording the predecessor) on strict improvement. -/
def relaxOne (visited : List DEntry) (u : Town) (du : Nat)
    (fr : List DEntry) (nb : Town × Nat) : List DEntry :=
  if visited.any (fun v => decide (v.1 = nb.1)) then fr
  else
    match fr.find? (fun p => decide (p.1 = nb.1)) with
    | none => fr ++ [(nb.1, du + nb.2, some u)]
    | some p =>
        if du + nb.2 < p.2.1 then
          fr.map (fun q => if q.1 = nb.1 then (nb.1, du + nb.2, some u) else q)
        else fr

/-- The label-setting loop: extract the minimum entry, finalize it, stop
if it is the target, otherwise relax its neighbors and recurse.  `fuel`
bounds the iteration count (one extraction per node suffices). -/
def dijkstraLoop (es : List WEdge) (target : Town) :
    Nat → List DEntry → List DEntry → List DEntry
  | 0, _, visited => visited
  | fuel + 1, fr, visited =>
      match pickMin fr with
      | none => visited
      | some (u, du, pu) =>
          let visited' := visited ++ [(u, du, pu)]
          if u = target then visited'
          else
            let fr' := fr.filter (fun p => !(decide (p.1 = u)))
            let fr'' := (neighbors es u).foldl
              (fun f nb => relaxOne visited' u du f nb) fr'
            dijkstraLoop es target fuel fr'' visited'

/-- Follow predecessor links from `cur` back to the source, accumulating
the path. -/
def reconstruct (visited : List DEntry) :
    Nat → Town → List Town → Option (List Town)
  | 0, _, _ => none
  | fuel + 1, cur, acc =>
      match visited.find? (fun p => decide (p.1 = cur)) with
      | none => none
      | some (_, _, none) => some (cur :: acc)
      | some (_, _, some pred) => reconstruct visited fuel pred (cur :: acc)

/-- Modelled from the spec: `nx.dijkstra_path` and
`nx.dijkstra_path_length` (lines 42-43) as one search returning the path
and its total weight, or `none` when the target is unreachable (the
library raises `NetworkXNoPath`, the spec's `UnreachableError`). -/
def dijkstra (es : List WEdge) (source target : Town) :
    Option (List Town × Nat) :=
  let visited :=
    dijkstraLoop es target ((townsOf es).length + 1) [(source, 0, none)] []
  match visited.find? (fun p => decide (p.1 = target)) with
  | none => none
  | some (_, d, _) =>
      match reconstruct visited (visited.length + 1) target [] with
      | none => none
      | some path => some (path, d)

/-! ## Property-side definitions

These formalize the vocabulary of the claims (spec §3, §4.3): chains of
selected edges, single directed paths, valid paths of the network model,
and the spec's statement of the flow-balance constraints.  They are
written from the claims' words, to be compared with the code-side
definitions above. -/

/-- Count of selected edges whose declared destination endpoint is `t`
(the spec's description of `inflow(t)` as a sum of `select(e)`). -/
def inflowCount (es : List WEdge) (σ : List Bool) (t : Town) : Nat :=
  ((selectedEdges es σ).filter (fun e => decide (e.2 = t))).length

/-- Count of selected edges whose declared source endpoint is `t`
(the spec's description of `outflow(t)`). -/
def outflowCount (es : List WEdge) (σ : List Bool) (t : Town) : Nat :=
  ((selectedEdges es σ).filter (fun e => decide (e.1 = t))).length

/-- The spec's flow-balance condition at one node, stated with the
counting in/outflow. -/
def specNodeOk (es : List WEdge) (σ : List Bool) (t : Town) : Bool :=
  if t = "Origin" then
    decide ((outflowCount es σ t : Int) - (inflowCount es σ t : Int) = 1)
  else if t = "Destination" then
    decide ((inflowCount es σ t : Int) - (outflowCount es σ t : Int) = 1)
  else
    decide ((inflowCount es σ t : Int) - (outflowCount es σ t : Int) = 0)

/-- The spec's flow-balance system: one condition per node of the
network. -/
def specFeasible (es : List WEdge) (σ : List Bool) : Bool :=
  (townsOf es).all (specNodeOk es σ)

/-- `chainsTo cur target sel`: the edge list `sel`, in the order given,
links `cur` to `target` through matching endpoints (each edge's source
is the current node, its target becomes the next current node). -/
def chainsTo (cur target : Town) : List (Town × Town) → Bool
  | [] => decide (cur = target)
  | e :: rest => decide (e.1 = cur) && chainsTo e.2 target rest

/-- The selected edges, in the order given, form a chain oriented from
`source` to `target`. -/
def chainB (source target : Town) (sel : List (Town × Town)) : Bool :=
  chainsTo source target sel

/-- Walk from `cur`, at each step consuming the unique remaining edge
whose source is the current node; succeed iff every edge is consumed and
the walk ends at `target`.  This holds iff the edge set is exactly the
edge set of one simple directed path from `cur` to `target`. -/
def walkConsume : Nat → Town → Town → List (Town × Town) → Bool
  | 0, _, _, _ => false
  | fuel + 1, cur, target, sel =>
      if sel.isEmpty then decide (cur = target)
      else
        match sel.filter (fun e => decide (e.1 = cur)) with
        | [e] => walkConsume fuel e.2 target (sel.erase e)
        | _ => false

/-- The edge set `sel` forms exactly one directed path from `source` to
`target`. -/
def isSingleDirPath (source target : Town) (sel : List (Town × Town)) : Bool :=
  walkConsume (sel.length + 1) source target sel

/-- `a` and `b` are joined by a declared edge, in either orientation
(the network model's undirected adjacency, spec §3). -/
def isEdgeU (es : List WEdge) (a b : Town) : Bool :=
  es.any (fun p =>
    (decide (p.1.1 = a) && decide (p.1.2 = b)) ||
    (decide (p.1.1 = b) && decide (p.1.2 = a)))

/-- Every consecutive pair of the node list is an undirected edge. -/
def consecutiveOk (es : List WEdge) : List Town → Bool
  | a :: b :: rest => isEdgeU es a b && consecutiveOk es (b :: rest)
  | _ => true

/-- The spec's `Path` (§3): an ordered node sequence whose consecutive
pairs are edges of the network model, starting at `source` and ending at
`target`. -/
def isValidPathB (es : List WEdge) (source target : Town)
    (p : List Town) : Bool :=
  match p with
  | [] => false
  | x :: _ =>
      decide (x = source) && decide (p.getLast? = some target) &&
      consecutiveOk es p

/-- The node sequence the decode step builds from a nonempty selection
(the payload of `decodeSeq` when it succeeds). -/
def decodePayload (sel : List (Town × Town)) : List Town :=
  match sel with
  | [] => []
  | e :: l => e.1 :: (e :: l).map (fun x => x.2)

/-- The declared network with every edge incident to `"Destination"`
removed (the modified graph of the unreachability claim). -/
def strippedEdges : List WEdge :=
  edges.filter
    (fun p => !(decide (p.1.1 = "Destination") || decide (p.1.2 = "Destination")))

/-! ## Network construction (lines 29-31)

`G.add_edge(u, v, weight=w)` for each declared edge.  Weights are `Int`
here so that the negative-weight inputs of the validation claim are
expressible. -/

/-- An input edge triple with a possibly negative weight. -/
abbrev ZEdge := (Town × Town) × Int

/-- Modelled from the spec: the spec's `addEdge` contract (§4.1) has no
implementation in the source; the source calls networkx
`Graph.add_edge`, whose documented behavior is modelled here: inserting
an edge between a new unordered pair appends it, inserting an edge
between an existing unordered pair silently overwrites its weight, and
no input (negative weight, self-loop, duplicate) is rejected. -/
def addEdge (g : List ZEdge) (u v : Town) (w : Int) : List ZEdge :=
  if g.any (fun p =>
      (decide (p.1.1 = u) && decide (p.1.2 = v)) ||
      (decide (p.1.1 = v) && decide (p.1.2 = u))) then
    g.map (fun p =>
      if (p.1.1 = u ∧ p.1.2 = v) ∨ (p.1.1 = v ∧ p.1.2 = u) then (p.1, w)
      else p)
  else g ++ [((u, v), w)]

/-- The construction loop at lines 29-31: fold `add_edge` over the input
edge list.  It always succeeds; no `InvalidEdgeError` exists anywhere in
the source. -/
def buildNetwork (es : List ZEdge) : Except PyErr (List ZEdge) :=
  .ok (es.foldl (fun g p => addEdge g p.1.1 p.1.2 p.2) [])

/-! ## Helper lemmas -/

/-- `allAssignments n` enumerates exactly the Boolean lists of length
`n`. -/
theorem mem_allAssignments (n : Nat) :
    ∀ σ : List Bool, σ ∈ allAssignments n ↔ σ.length = n := by
  induction n with
  | zero => intro σ; simp [allAssignments, List.length_eq_zero]
  | succ n ih =>
    intro σ
    simp only [allAssignments, List.mem_append, List.mem_map]
    constructor
    · rintro (⟨τ, hτ, rfl⟩ | ⟨τ, hτ, rfl⟩) <;> simp [(ih τ).mp hτ]
    · intro hlen
      cases σ with
      | nil => simp at hlen
      | cons b τ =>
        have hτ : τ.length = n := by simpa using hlen
        cases b
        · exact Or.inl ⟨τ, (ih τ).mpr hτ, rfl⟩
        · exact Or.inr ⟨τ, (ih τ).mpr hτ, rfl⟩

/-- A sum of 0/1 indicators over a Boolean-filtered list is the length of
the corresponding selected-and-filtered list. -/
theorem indicator_sum_eq_count (g : Town × Town → Bool) :
    ∀ ps : List (WEdge × Bool),
      ((ps.filter (fun p => g p.1.1)).map
        (fun p => if p.2 then (1 : Int) else 0)).sum =
      ((((ps.filter (fun p => p.2)).map (fun p => p.1.1)).filter g).length : Int) := by
  intro ps
  induction ps with
  | nil => rfl
  | cons p ps ih =>
    by_cases hg : g p.1.1 <;> cases hb : p.2 <;>
      simp [List.filter_cons, hg, hb, ih] <;> push_cast <;> omega

/-- The code's `inflow` (an LP sum of selection variables) equals the
spec's count of selected edges with destination endpoint `t`. -/
theorem inflow_eq_count (es : List WEdge) (σ : List Bool) (t : Town) :
    inflow es σ t = (inflowCount es σ t : Int) :=
  indicator_sum_eq_count (fun e => decide (e.2 = t)) (es.zip σ)

/-- The code's `outflow` equals the spec's count of selected edges with
source endpoint `t`. -/
theorem outflow_eq_count (es : List WEdge) (σ : List Bool) (t : Town) :
    outflow es σ t = (outflowCount es σ t : Int) :=
  indicator_sum_eq_count (fun e => decide (e.1 = t)) (es.zip σ)

/-- Congruence for `List.all`. -/
theorem all_congr {α : Type} (l : List α) (f g : α → Bool)
    (h : ∀ a ∈ l, f a = g a) : l.all f = l.all g := by
  induction l with
  | nil => rfl
  | cons a l ih =>
    simp only [List.all_cons, h a (by simp)]
    rw [ih (fun x hx => h x (by simp [hx]))]

/-- The code-side constraint system coincides with the spec-side one. -/
theorem feasibleB_eq_spec (es : List WEdge) (σ : List Bool) :
    feasibleB es σ = specFeasible es σ := by
  show (townsOf es).all (nodeConstraint es σ) = (townsOf es).all (specNodeOk es σ)
  refine all_congr _ _ _ (fun t _ => ?_)
  unfold nodeConstraint specNodeOk
  rw [inflow_eq_count, outflow_eq_count]

/-- Every selected edge is a declared edge key. -/
theorem selected_sub_keys (es : List WEdge) (σ : List Bool)
    (k : Town × Town) (h : k ∈ selectedEdges es σ) :
    k ∈ es.map (fun p => p.1) := by
  simp only [selectedEdges, List.mem_map, List.mem_filter] at h
  obtain ⟨p, ⟨hz, _⟩, rfl⟩ := h
  exact List.mem_map.mpr ⟨p.1, (List.of_mem_zip hz).1, rfl⟩

/-- A declared edge key is an undirected edge of the network. -/
theorem isEdgeU_of_key (es : List WEdge) (k : Town × Town)
    (h : k ∈ es.map (fun p => p.1)) : isEdgeU es k.1 k.2 = true := by
  simp only [List.mem_map] at h
  obtain ⟨p, hp, rfl⟩ := h
  simp only [isEdgeU, List.any_eq_true]
  exact ⟨p, hp, by simp⟩

/-- A chain of declared edges decodes to a valid path of the network
model (the node sequence starts at `cur`, ends at `target`, and all its
consecutive pairs are undirected edges). -/
theorem chain_valid_aux (es : List WEdge) :
    ∀ (sel : List (Town × Town)) (cur target : Town),
      (∀ e ∈ sel, e ∈ es.map (fun p => p.1)) →
      chainsTo cur target sel = true →
      isValidPathB es cur target (cur :: sel.map (fun x => x.2)) = true := by
  intro sel
  induction sel with
  | nil =>
    intro cur target _ hchain
    simp only [chainsTo, decide_eq_true_eq] at hchain
    subst hchain
    simp [isValidPathB, consecutiveOk]
  | cons e l ih =>
    intro cur target hsub hchain
    simp only [chainsTo, Bool.and_eq_true, decide_eq_true_eq] at hchain
    obtain ⟨he, hrest⟩ := hchain
    have hedge : isEdgeU es cur e.2 = true := by
      have hk := isEdgeU_of_key es e (hsub e (by simp))
      rwa [he] at hk
    have hvalid := ih e.2 target (fun x hx => hsub x (by simp [hx])) hrest
    simp only [isValidPathB, List.map_cons, Bool.and_eq_true,
      decide_eq_true_eq] at hvalid ⊢
    obtain ⟨⟨-, hlast⟩, hconsec⟩ := hvalid
    refine ⟨⟨by trivial, ?_⟩, ?_⟩
    · simpa using hlast
    · simp [consecutiveOk, hedge, hconsec]

/-- Looking the head edge up in the extended dict gives its weight. -/
theorem weightOf_cons_self (e : WEdge) (es : List WEdge) :
    weightOf (e :: es) e.1 = e.2 := by
  unfold weightOf
  rw [List.find?_cons_of_pos _ (by simp)]

/-- Looking a different key up in the extended dict skips the head. -/
theorem weightOf_cons_ne (e : WEdge) (es : List WEdge) (k : Town × Town)
    (hk : k ≠ e.1) : weightOf (e :: es) k = weightOf es k := by
  unfold weightOf
  rw [List.find?_cons_of_neg _ (by simpa using Ne.symm hk)]

/-- Selecting with a leading `true` keeps the head edge. -/
theorem selectedEdges_cons_true (e : WEdge) (es : List WEdge) (σ : List Bool) :
    selectedEdges (e :: es) (true :: σ) = e.1 :: selectedEdges es σ := by
  simp [selectedEdges, List.filter_cons]

/-- Selecting with a leading `false` drops the head edge. -/
theorem selectedEdges_cons_false (e : WEdge) (es : List WEdge) (σ : List Bool) :
    selectedEdges (e :: es) (false :: σ) = selectedEdges es σ := by
  simp [selectedEdges, List.filter_cons]

/-- The objective of a cons decomposes. -/
theorem objective_cons (e : WEdge) (es : List WEdge) (b : Bool) (σ : List Bool) :
    objective (e :: es) (b :: σ) = (if b then e.2 else 0) + objective es σ := by
  simp [objective]

/-- With distinct dict keys, summing looked-up weights of the selected
edges gives the LP objective. -/
theorem reported_eq_objective_aux :
    ∀ (es : List WEdge) (σ : List Bool),
      (es.map (fun p => p.1)).Nodup →
      ((selectedEdges es σ).map (weightOf es)).sum = objective es σ := by
  intro es
  induction es with
  | nil => intro σ _; cases σ <;> rfl
  | cons e es ih =>
    intro σ hnd
    rw [List.map_cons, List.nodup_cons] at hnd
    obtain ⟨hnotin, hnd'⟩ := hnd
    cases σ with
    | nil => rfl
    | cons b σ' =>
      have hmapeq : (selectedEdges es σ').map (weightOf (e :: es)) =
          (selectedEdges es σ').map (weightOf es) :=
        List.map_congr_left (fun k hk =>
          weightOf_cons_ne e es k
            (fun hke => hnotin (hke ▸ selected_sub_keys es σ' k hk)))
      cases b with
      | false =>
        rw [selectedEdges_cons_false, objective_cons, hmapeq, ih σ' hnd']
        simp
      | true =>
        rw [selectedEdges_cons_true, objective_cons, List.map_cons,
          List.sum_cons, weightOf_cons_self, hmapeq, ih σ' hnd']
        simp

/-! ## Concrete evaluation of the declared network -/

/-- The feasible region of the declared network's binary program,
written out: the indicator vectors of the eleven directed
origin-to-destination paths that respect the declared orientations. -/
def elevenPaths : List (List Bool) :=
  [ [false, false, true, false, false, false, false, false, true, false, false, true],
    [false, true, false, false, false, false, false, true, false, false, false, true],
    [false, true, false, false, false, false, true, false, false, false, true, false],
    [false, true, false, false, false, false, true, false, false, true, false, true],
    [false, true, false, false, false, true, false, false, true, false, false, true],
    [true, false, false, false, true, false, false, false, false, false, true, false],
    [true, false, false, false, true, false, false, false, false, true, false, true],
    [true, false, false, true, false, false, false, true, false, false, false, true],
    [true, false, false, true, false, false, true, false, false, false, true, false],
    [true, false, false, true, false, false, true, false, false, true, false, true],
    [true, false, false, true, false, true, false, false, true, false, false, true] ]

/-- Exhaustive enumeration of all 4096 assignments: exactly eleven are
feasible. -/
theorem feasible_eq_eleven : feasibleAssignments edges = elevenPaths := by decide

/-- The optimal objective value of the declared network's program
is 165. -/
theorem lpOptimum_edges_eq : lpOptimum edges = some 165 := by
  show ((feasibleAssignments edges).map (objective edges)).min? = some 165
  rw [feasible_eq_eleven]
  rfl

/-- The solver returns the indicator of the directed path
Origin-A-B-D-Destination, the unique optimum. -/
theorem solveLP_edges_eq :
    solveLP edges =
      some [true, false, false, true, false, false, true, false, false, false, true, false] := by
  show (feasibleAssignments edges).find?
      (fun σ => decide (some (objective edges σ) = lpOptimum edges)) = _
  rw [lpOptimum_edges_eq, feasible_eq_eleven]
  rfl

/-- The value the app decodes and reports for the LP on the declared
network. -/
theorem optimalPathResult_edges_eq :
    optimalPathResult edges =
      Except.ok (["Origin", "A", "B", "D", "Destination"], 165) := by
  unfold optimalPathResult solvedSelection
  rw [solveLP_edges_eq]
  rfl

/-- Exhaustive enumeration of all 1024 assignments of the
destination-stripped network: none is feasible. -/
theorem feasible_stripped_empty : feasibleAssignments strippedEdges = [] := by decide

/-- On the stripped network the modelled solve finds no assignment. -/
theorem solveLP_stripped_eq : solveLP strippedEdges = none := by
  show (feasibleAssignments strippedEdges).find?
      (fun σ => decide (some (objective strippedEdges σ) = lpOptimum strippedEdges)) = _
  rw [feasible_stripped_empty]
  rfl

/-- On the stripped network every variable reads back unselected, the
selection is empty, and `opt_path[0]` raises `IndexError`. -/
theorem optimalPathResult_stripped_eq :
    optimalPathResult strippedEdges = Except.error PyErr.indexError := by
  unfold optimalPathResult solvedSelection
  rw [solveLP_stripped_eq]
  rfl

/-! ## Claim theorems -/

/-- Claim C1.  The claim asserts that the Dijkstra search and the
binary-LP formulation return equal total weight on every connected graph
with non-negative weights, in particular on the declared 12-edge network.
The code violates this on its own declared network: the undirected search
returns total weight 160 while the LP optimum over the declared
orientations is 165.  (This theorem evaluates the code at the failing
input; the claim reflects the code's intent — the app's own output text
treats parts (b) and (c) as one answer — so the directed-only LP variable
set is a code bug.) -/
theorem cross_method_totals_differ :
    (dijkstra edges "Origin" "Destination").map (fun r => r.2) = some 160 ∧
    lpOptimum edges = some 165 ∧ (some 160 : Option Nat) ≠ some 165 :=
  ⟨rfl, lpOptimum_edges_eq, by decide⟩

/-- Claim C2, counterexample.  The claim asserts both methods return
total weight 130 on the declared graph; the shortest-path search in fact
returns 160 (the claimed node sequence Origin-A-B-E-D-Destination indeed
has weight 40+10+40+10+60 = 160, not 130). -/
theorem declared_totals_not_130 :
    dijkstra edges "Origin" "Destination" =
      some (["Origin", "A", "B", "E", "D", "Destination"], 160) ∧
    (160 : Nat) ≠ 130 :=
  ⟨rfl, by decide⟩

/-- Claim C2, amended.  On the declared 7-node graph the shortest-path
search returns total weight 160 via Origin-A-B-E-D-Destination, and the
LP returns total weight 165 via Origin-A-B-D-Destination (it cannot use
the D-E edge in reverse). -/
theorem declared_network_results :
    dijkstra edges "Origin" "Destination" =
      some (["Origin", "A", "B", "E", "D", "Destination"], 160) ∧
    optimalPathResult edges =
      Except.ok (["Origin", "A", "B", "D", "Destination"], 165) :=
  ⟨rfl, optimalPathResult_edges_eq⟩

/-- Claim C3.  The constraint construction imposes exactly one linear
equality per node of the network (the seven sorted endpoint labels):
the code-side `inflow`/`outflow` sums equal the spec-side counts of
selected edges by declared destination/source endpoint, and the code-side
constraint system coincides with the spec-side system (origin:
outflow - inflow = 1; destination: inflow - outflow = 1; otherwise:
inflow - outflow = 0). -/
theorem flow_constraints_characterized :
    townsOf edges = ["A", "B", "C", "D", "Destination", "E", "Origin"] ∧
    (∀ (σ : List Bool) (t : Town),
      inflow edges σ t = (inflowCount edges σ t : Int) ∧
      outflow edges σ t = (outflowCount edges σ t : Int)) ∧
    ∀ σ : List Bool, feasibleB edges σ = specFeasible edges σ :=
  ⟨rfl,
   fun σ t => ⟨inflow_eq_count edges σ t, outflow_eq_count edges σ t⟩,
   fun σ => feasibleB_eq_spec edges σ⟩

/-- Claim C4.  Every binary assignment satisfying all flow-conservation
constraints of the declared network selects an edge set that forms
exactly one (simple, directed) path from the origin to the destination. -/
theorem feasible_forms_single_path (σ : List Bool)
    (hlen : σ.length = edges.length) (hfeas : feasibleB edges σ = true) :
    isSingleDirPath "Origin" "Destination" (selectedEdges edges σ) = true := by
  have hmem : σ ∈ feasibleAssignments edges :=
    List.mem_filter.mpr ⟨(mem_allAssignments edges.length σ).mpr hlen, hfeas⟩
  rw [feasible_eq_eleven] at hmem
  have hall : ∀ τ ∈ elevenPaths,
      isSingleDirPath "Origin" "Destination" (selectedEdges edges τ) = true := by
    decide
  exact hall σ hmem

/-- Claim C4, witness: the feasible indicator of the directed path
Origin-A-B-D-Destination selects a single path. -/
theorem feasible_forms_single_path_witness :
    isSingleDirPath "Origin" "Destination"
      (selectedEdges edges
        [true, false, false, true, false, false, true, false, false, false, true, false]) =
      true :=
  feasible_forms_single_path
    [true, false, false, true, false, false, true, false, false, false, true, false]
    (by decide) (by decide)

/-- Claim C5.  Every declared edge is traversable in both directions by
the path search (both endpoints list each other among their neighbors
with the edge's weight), the optimizer has exactly one decision variable
per declared edge (the dict keys are distinct), and no declared edge's
reversed pair is a variable key. -/
theorem undirected_search_directed_variables :
    (edges.all (fun p =>
      decide ((p.1.2, p.2) ∈ neighbors edges p.1.1) &&
      decide ((p.1.1, p.2) ∈ neighbors edges p.1.2))) = true ∧
    (edges.map (fun p => p.1)).Nodup ∧
    (edges.all (fun p =>
      !((edges.map (fun q => q.1)).contains (p.1.2, p.1.1)))) = true := by
  refine ⟨by decide, by decide, by decide⟩

/-- Claim C6, counterexample.  With every destination-incident edge
removed, the optimizer does not fail with the spec's `InfeasibleError`:
the code never checks the solver status, every selection variable reads
back unselected, and `opt_path[0]` raises `IndexError`. -/
theorem stripped_lp_error_kind :
    optimalPathResult strippedEdges = Except.error PyErr.indexError ∧
    PyErr.indexError ≠ PyErr.infeasible :=
  ⟨optimalPathResult_stripped_eq, by decide⟩

/-- Claim C6, amended.  Removing every destination-incident edge makes
the shortest-path search fail with no result (the library's
`NetworkXNoPath`, the spec's `UnreachableError`) and makes the binary
program infeasible; but since the solver status is never checked, the LP
branch fails with `IndexError` on the empty decoded selection rather than
with `InfeasibleError`. -/
theorem stripped_network_behavior :
    dijkstra strippedEdges "Origin" "Destination" = none ∧
    feasibleAssignments strippedEdges = [] ∧
    optimalPathResult strippedEdges = Except.error PyErr.indexError :=
  ⟨rfl, feasible_stripped_empty, optimalPathResult_stripped_eq⟩

/-- Claim C7, counterexample.  The decode step performs no chain check:
on a selection that does not chain (here `(Origin, A)` and
`(D, Destination)`), it succeeds with the malformed sequence
Origin-A-Destination instead of failing with `DecodeError`. -/
theorem decode_no_chain_check :
    decodeSeq [("Origin", "A"), ("D", "Destination")] =
      Except.ok ["Origin", "A", "Destination"] ∧
    chainB "Origin" "Destination" [("Origin", "A"), ("D", "Destination")] = false :=
  ⟨rfl, rfl⟩

/-- Claim C7, amended.  The decode step collects exactly the edges whose
selection value is 1 and concatenates them with no validation: any
nonempty selection decodes successfully to the naive sequence, the empty
selection raises `IndexError`, and no input ever produces the spec's
`DecodeError`. -/
theorem decode_unvalidated :
    (∀ (e : Town × Town) (l : List (Town × Town)),
      decodeSeq (e :: l) = Except.ok (e.1 :: (e :: l).map (fun x => x.2))) ∧
    decodeSeq ([] : List (Town × Town)) = Except.error PyErr.indexError ∧
    ∀ sel : List (Town × Town), decodeSeq sel ≠ Except.error PyErr.decodeError := by
  refine ⟨fun e l => rfl, rfl, fun sel h => ?_⟩
  cases sel <;> simp [decodeSeq] at h

/-- Claim C7, witness: a concrete one-edge selection decodes to its
naive sequence. -/
theorem decode_unvalidated_witness :
    decodeSeq [(("Origin" : Town), ("A" : Town))] = Except.ok ["Origin", "A"] :=
  decode_unvalidated.1 ("Origin", "A") []

/-- Claim C8, counterexample.  Building the network from an edge list
with a self-loop of negative weight succeeds (the graph is built,
nothing is rejected) instead of failing with the spec's
`InvalidEdgeError`. -/
theorem buildNetwork_accepts_invalid :
    buildNetwork [(("A", "A"), (-5 : Int))] = Except.ok [(("A", "A"), -5)] ∧
    (Except.ok [(("A", "A"), (-5 : Int))] : Except PyErr (List ZEdge)) ≠
      Except.error PyErr.invalidEdge :=
  ⟨rfl, fun h => Except.noConfusion h⟩

/-- Claim C8, amended.  Network construction never fails on any input:
`add_edge` accepts negative weights and self-loops, and a duplicate edge
between the same unordered pair silently overwrites the stored weight. -/
theorem buildNetwork_always_succeeds :
    (∀ es : List ZEdge, ∃ g, buildNetwork es = Except.ok g) ∧
    buildNetwork [(("A", "B"), (5 : Int)), (("B", "A"), 7)] =
      Except.ok [(("A", "B"), 7)] :=
  ⟨fun es => ⟨_, rfl⟩, rfl⟩

/-- Claim C9.  The optimizer has one binary decision variable per
declared edge (distinct dict keys, declared orientation), and for every
assignment the total weight the app reports (summing dict lookups over
the selected edges) equals the minimized LP objective value. -/
theorem lp_one_var_per_edge_objective :
    (edges.map (fun p => p.1)).Nodup ∧
    ∀ σ : List Bool, reportedTotal edges σ = objective edges σ :=
  ⟨by decide, fun σ => reported_eq_objective_aux edges σ (by decide)⟩

/-- Claim C10, counterexample.  The decoded output can be a valid
origin-to-destination path even when the selected edges do not chain in
declaration order: selecting edges (Origin,A), (Origin,B), (C,E),
(E,Destination) decodes to Origin-A-B-E-Destination, which is a valid
path of the network, although the selection is not a chain. -/
theorem decode_coincidental_validity :
    chainB "Origin" "Destination"
      (selectedEdges edges
        [true, true, false, false, false, false, false, false, true, false, false, true]) =
      false ∧
    decodeSeq
      (selectedEdges edges
        [true, true, false, false, false, false, false, false, true, false, false, true]) =
      Except.ok ["Origin", "A", "B", "E", "Destination"] ∧
    isValidPathB edges "Origin" "Destination"
      ["Origin", "A", "B", "E", "Destination"] = true :=
  ⟨rfl, rfl, rfl⟩

/-- Claim C10, amended.  The decoded LP sequence is built purely from
declaration order — the first selected edge's source endpoint followed by
every selected edge's second endpoint, with no adjacency check — and
whenever the selected edges do chain in declaration order from origin to
destination, the decoded output is that chain and is a valid Path (the
converse fails, see the counterexample). -/
theorem decode_declaration_order (σ : List Bool) :
    decodeSeq (selectedEdges edges σ) =
      (match selectedEdges edges σ with
        | [] => Except.error PyErr.indexError
        | e :: l => Except.ok (e.1 :: (e :: l).map (fun x => x.2))) ∧
    (chainB "Origin" "Destination" (selectedEdges edges σ) = true →
      isValidPathB edges "Origin" "Destination"
        (decodePayload (selectedEdges edges σ)) = true) := by
  constructor
  · cases h : selectedEdges edges σ <;> simp [decodeSeq]
  · intro hchain
    cases hsel : selectedEdges edges σ with
    | nil =>
      rw [hsel] at hchain
      exact absurd hchain (by decide)
    | cons e l =>
      rw [hsel] at hchain
      have hsub : ∀ x ∈ e :: l, x ∈ edges.map (fun p => p.1) := by
        intro x hx
        exact selected_sub_keys edges σ x (hsel ▸ hx)
      have hchain' : chainsTo "Origin" "Destination" (e :: l) = true := hchain
      have he1 : e.1 = "Origin" := by
        simp only [chainsTo, Bool.and_eq_true, decide_eq_true_eq] at hchain'
        exact hchain'.1
      have hv := chain_valid_aux edges (e :: l) "Origin" "Destination" hsub hchain'
      simpa [decodePayload, he1] using hv

/-- Claim C10, witness: the solver's actual selection on the declared
network chains in declaration order, and its decoded output is a valid
path. -/
theorem decode_declaration_order_witness :
    isValidPathB edges "Origin" "Destination"
      (decodePayload
        (selectedEdges edges
          [true, false, false, true, false, false, true, false, false, false, true, false])) =
      true :=
  (decode_declaration_order
    [true, false, false, true, false, false, true, false, false, false, true, false]).2
    (by decide)

end MSDS460
